import Mathlib

/-!
Verification of the retrieve-then-decide pipeline of the interview-assistant
repository: a shallow embedding of `src/interview_assistant.py`,
`src/vectorstore.py`, `src/evaluator.py` and `retriever_module.py`,
with theorems settling the specification claims.

External services (the embedding provider, the chat models, the persisted
nearest-neighbour index) are modelled as explicit function parameters; the
raw judgment-model output is modelled by its parse outcome.
-/

namespace InterviewPipeline

/-- Python exceptions that the embedded code can raise. -/
inductive PyError where
  | valueError (msg : String)
  | keyError
deriving DecidableEq, Repr

/-- A retrieved candidate answer: `{'answer': doc.page_content,
'metadata': doc.metadata}` built in `_retrieve_candidates`. -/
structure Candidate where
  answer : String
  metadata : List (String × String)
deriving DecidableEq, Repr

/-- The fields of a judgment-model response once `json.loads` succeeded;
a field is `none` when the key is absent from the parsed JSON object
(so that reading it raises `KeyError`). -/
structure ParsedJson where
  relevance_score : Option Int
  reasoning : Option String
  should_use : Option Bool
deriving DecidableEq, Repr

/-- Outcome of `json.loads` on the raw judgment-model output:
`malformed` is a `json.JSONDecodeError`, `parsed` a successful parse. -/
inductive RawOutput where
  | malformed
  | parsed (j : ParsedJson)
deriving DecidableEq, Repr

/-- Reading a key from a parsed JSON object: `eval_result[key]` raises
`KeyError` when the key is absent. -/
def getKey {α : Type} : Option α → Except PyError α
  | some v => .ok v
  | none => .error .keyError

/-- One entry of the `evaluations` list built by `_evaluate_candidates`. -/
structure Evaluation where
  answer : String
  metadata : List (String × String)
  relevance_score : Int
  reasoning : String
  should_use : Bool
deriving DecidableEq, Repr

/-- The sentinel evaluation appended in the `except json.JSONDecodeError`
branch of `_evaluate_candidates`. -/
def fallbackEvaluation (c : Candidate) : Evaluation :=
  { answer := c.answer
    metadata := c.metadata
    relevance_score := 0
    reasoning := "Evaluation failed"
    should_use := false }

/-- `_evaluate_candidates` (interview_assistant.py lines 99-181), with the
judgment model's raw outputs supplied alongside each candidate.  The
`try` block wraps `json.loads` and the dict construction but only
`json.JSONDecodeError` is caught, so `KeyError` from a missing field
propagates and aborts the whole loop. -/
def evaluateCandidates : List (Candidate × RawOutput) → Except PyError (List Evaluation)
  | [] => .ok []
  | (c, .malformed) :: rest =>
    match evaluateCandidates rest with
    | .error e => .error e
    | .ok evs => .ok (fallbackEvaluation c :: evs)
  | (c, .parsed j) :: rest =>
    match getKey j.relevance_score, getKey j.reasoning, getKey j.should_use with
    | .ok s, .ok r, .ok u =>
      (match evaluateCandidates rest with
      | .error e => .error e
      | .ok evs => .ok ({ answer := c.answer, metadata := c.metadata,
                          relevance_score := s, reasoning := r,
                          should_use := u } :: evs))
    | .error e, _, _ => .error e
    | _, .error e, _ => .error e
    | _, _, .error e => .error e

/-- Python's `max(evaluations, key=lambda x: x['relevance_score'])` on a
non-empty list: fold keeping the current element unless a strictly
greater key appears, so the first maximal element wins. -/
def pyMax : Evaluation → List Evaluation → Evaluation
  | b, [] => b
  | b, x :: xs => pyMax (if x.relevance_score > b.relevance_score then x else b) xs

/-- `max` over the whole evaluations list; `none` models the
`ValueError` Python raises on an empty sequence. -/
def bestEvaluation : List Evaluation → Option Evaluation
  | [] => none
  | e :: es => some (pyMax e es)

/-- Which branch produced the decision. -/
inductive Source where
  | PREPARED
  | GENERATED
deriving DecidableEq, Repr

/-- The decision dict returned by `answer_question`; `metadata` is present
only in the PREPARED branch and `used_contexts` only in the GENERATED
branch, mirroring the two dict literals. -/
structure Decision where
  answer : String
  source : Source
  confidence : Int
  reasoning : String
  candidates_evaluated : Nat
  metadata : Option (List (String × String))
  used_contexts : Option Nat
deriving DecidableEq, Repr

/-- The context string of `_generate_answer`:
`"\n\n---\n\n".join(f"Experience {i+1}:\n{c['answer']}" for first 3)`. -/
def buildContext (candidates : List Candidate) : String :=
  String.intercalate "\n\n---\n\n"
    ((candidates.take 3).enum.map
      (fun p => "Experience " ++ toString (p.1 + 1) ++ ":\n" ++ p.2.answer))

/-- `_generate_answer` (interview_assistant.py lines 183-227): the creative
model is the parameter `gen`, taking the question and the assembled
context; returns the generated answer and `used_contexts`. -/
def generateAnswer (gen : String → String → String) (question : String)
    (candidates : List Candidate) : String × Nat :=
  (gen question (buildContext candidates), (candidates.take 3).length)

/-- `answer_question` (interview_assistant.py lines 23-84).  `gen` stands
for the creative model, `outputs` are the judgment model's raw responses
in candidate order. -/
def answerQuestion (gen : String → String → String) (question : String)
    (candidates : List Candidate) (outputs : List RawOutput)
    (min_relevance_score : Int) : Except PyError Decision :=
  match evaluateCandidates (candidates.zip outputs) with
  | .error e => .error e
  | .ok [] => .error (.valueError "max() arg is an empty sequence")
  | .ok (e :: es) =>
    let best := pyMax e es
    if best.relevance_score ≥ min_relevance_score then
      .ok { answer := best.answer
            source := .PREPARED
            confidence := best.relevance_score
            reasoning := best.reasoning
            candidates_evaluated := candidates.length
            metadata := some best.metadata
            used_contexts := none }
    else
      let g := generateAnswer gen question candidates
      .ok { answer := g.1
            source := .GENERATED
            confidence := best.relevance_score
            reasoning := "No perfect match found (best: " ++
              toString best.relevance_score ++
              "/10). Generated answer using your prepared materials as context."
            candidates_evaluated := candidates.length
            metadata := none
            used_contexts := some g.2 }

/-- The per-candidate relation between the input pair and the produced
evaluation entry: a malformed response yields the sentinel evaluation,
a parsed response yields its three fields joined to the candidate. -/
def EvalRel : Candidate × RawOutput → Evaluation → Prop
  | (c, .malformed), ev => ev = fallbackEvaluation c
  | (c, .parsed j), ev =>
      j.relevance_score = some ev.relevance_score ∧
      j.reasoning = some ev.reasoning ∧
      j.should_use = some ev.should_use ∧
      ev.answer = c.answer ∧ ev.metadata = c.metadata

/-- A raw output whose dict access raises `KeyError`: a successfully
parsed JSON object lacking one of the three required keys. -/
def MissingKey : RawOutput → Prop
  | .malformed => False
  | .parsed j =>
      j.relevance_score = none ∨ j.reasoning = none ∨ j.should_use = none

instance : DecidablePred MissingKey := fun o =>
  match o with
  | .malformed => isFalse (fun h => h)
  | .parsed _ => inferInstanceAs (Decidable (_ ∨ _ ∨ _))

/-- Stable insertion by descending relevance score. -/
def insertByScore (e : Evaluation) : List Evaluation → List Evaluation
  | [] => [e]
  | x :: xs =>
    if e.relevance_score ≥ x.relevance_score then e :: x :: xs
    else x :: insertByScore e xs

/-- Stable descending sort by relevance score.  Spec-side reference
definition of "the same ranking" used for selection: best score first,
ties in first-seen order. -/
def rankByScore : List Evaluation → List Evaluation
  | [] => []
  | e :: es => insertByScore e (rankByScore es)

/-- The generation context the specification describes: built from the
top 3 candidates by the relevance-score ranking (spec-side reference
definition, to be compared with the source's retrieval-order context). -/
def specRankedContext (evs : List Evaluation) : String :=
  buildContext ((rankByScore evs).map (fun ev => ⟨ev.answer, ev.metadata⟩))

end InterviewPipeline

namespace VectorStore

open InterviewPipeline (PyError)

/-- A stored document: `page_content` plus string-valued metadata. -/
structure Document where
  page_content : String
  metadata : List (String × String)
deriving DecidableEq, Repr

/-- The persisted nearest-neighbour index handle (the `Chroma` object):
its stored documents and its scored search, an opaque external service.
`search_with_score` models `similarity_search_with_score(query, k)`,
returning the up-to-`k` nearest documents with their backend scores;
the plain `similarity_search(query, k)` of the backend returns the same
documents without scores. -/
structure Backend where
  docs : List Document
  search_with_score : String → Nat → List (Document × Rat)

/-- The backend's plain `similarity_search`: the scored search with the
scores dropped. -/
def Backend.plainSearch (b : Backend) (query : String) (k : Nat) : List Document :=
  (b.search_with_score query k).map Prod.fst

/-- `VectorStoreManager` state: `vectorstore` is `None` until
`create_vectorstore` or `load_vectorstore` runs. -/
structure Manager where
  collection_name : String
  embedding_model : String
  vectorstore : Option Backend

/-- `_deduplicate_documents` (vectorstore.py lines 95-106): a set of
`hash(doc.page_content)` values decides membership, first occurrence
wins.  `hashFn` is Python's string hash. -/
def dedupAux (hashFn : String → Int) (seen : List Int) :
    List Document → List Document
  | [] => []
  | doc :: rest =>
    let content_hash := hashFn doc.page_content
    if content_hash ∈ seen then dedupAux hashFn seen rest
    else doc :: dedupAux hashFn (content_hash :: seen) rest

/-- `_deduplicate_documents` starting from an empty `seen_content` set. -/
def deduplicateDocuments (hashFn : String → Int) (documents : List Document) :
    List Document :=
  dedupAux hashFn [] documents

/-- Deduplication keyed directly on the content string (first occurrence
wins).  Spec-side reference definition for the claim that deduplication
is "by content"; the source keys on `hash(content)`. -/
def dedupByContentAux (seen : List String) : List Document → List Document
  | [] => []
  | doc :: rest =>
    if doc.page_content ∈ seen then dedupByContentAux seen rest
    else doc :: dedupByContentAux (doc.page_content :: seen) rest

/-- Content-keyed deduplication from an empty seen set. -/
def dedupByContent (documents : List Document) : List Document :=
  dedupByContentAux [] documents

/-- `create_vectorstore` (vectorstore.py lines 34-50): deduplicate, hand
the survivors to `Chroma.from_documents` (whose index internals are the
opaque `mkSearch`), store and return the handle. -/
def createVectorstore (hashFn : String → Int)
    (mkSearch : List Document → String → Nat → List (Document × Rat))
    (s : Manager) (documents : List Document) : Manager × Backend :=
  let unique_docs := deduplicateDocuments hashFn documents
  let b : Backend := ⟨unique_docs, mkSearch unique_docs⟩
  ({ s with vectorstore := some b }, b)

/-- `add_documents` (vectorstore.py lines 62-69): raises `ValueError` on
an uninitialized store, otherwise deduplicates the incoming batch and
appends it to the index. -/
def addDocuments (hashFn : String → Int) (s : Manager)
    (documents : List Document) : Except PyError Manager :=
  match s.vectorstore with
  | none => .error (.valueError "Vector store not initialized. Create or load first.")
  | some b =>
    let unique_docs := deduplicateDocuments hashFn documents
    let b2 : Backend := { b with docs := b.docs ++ unique_docs }
    .ok { s with vectorstore := some b2 }

/-- Python truthiness of the `score_threshold: Optional[float]` argument:
`None` and `0` are falsy, every other number truthy. -/
def thresholdTruthy : Option Rat → Bool
  | none => false
  | some t => t != 0

/-- `similarity_search` (vectorstore.py lines 71-93): raises `ValueError`
when uninitialized; with a truthy threshold it fetches the scored top-k
and keeps the documents whose score is `>= score_threshold`, otherwise
it runs the plain top-k search. -/
def similaritySearch (s : Manager) (query : String) (k : Nat)
    (score_threshold : Option Rat) : Except PyError (List Document) :=
  match s.vectorstore with
  | none => .error (.valueError "Vector store not initialized")
  | some b =>
    if thresholdTruthy score_threshold then
      let docs_and_scores := b.search_with_score query k
      .ok ((docs_and_scores.filter
        (fun p => decide (p.2 ≥ score_threshold.getD 0))).map Prod.fst)
    else
      .ok (b.plainSearch query k)

/-- The dict returned by `get_collection_stats`. -/
inductive StatsResult where
  | error (msg : String)
  | stats (collection_name : String) (document_count : Nat) (embedding_model : String)
deriving DecidableEq, Repr

/-- `get_collection_stats` (vectorstore.py lines 108-118): returns an
error mapping (it does not raise) on an uninitialized store, otherwise
the collection name, `collection.count()` and the embedding model. -/
def getCollectionStats (s : Manager) : StatsResult :=
  match s.vectorstore with
  | none => .error "Vector store not initialized"
  | some b => .stats s.collection_name b.docs.length s.embedding_model

end VectorStore

namespace Evaluator

/-- A retrieved document as the evaluator sees it: only the `doc_id`
metadata entry matters; `none` models a missing key, read through
`metadata.get('doc_id', -1)`. -/
structure EvalDoc where
  doc_id : Option Int
deriving DecidableEq, Repr

/-- `retrieved_ids` (evaluator.py lines 49-52): the `doc_id` (default
`-1`) of the first `k` retrieved documents. -/
def retrievedIds (retrieved_docs : List EvalDoc) (k : Nat) : List Int :=
  (retrieved_docs.take k).map (fun d => d.doc_id.getD (-1))

/-- The MRR loop of evaluator.py lines 71-75: walk the retrieved ids with
1-based index `i`, returning `1/i` at the first relevant hit, `0` if
none is relevant. -/
def mrrLoop (rel : List Int) : List Int → Nat → Rat
  | [], _ => 0
  | x :: xs, i => if x ∈ rel then (1 : Rat) / i else mrrLoop rel xs (i + 1)

/-- The metrics dict returned by `evaluate_retrieval`. -/
structure RetrievalMetrics where
  precision_k : Rat
  recall_k : Rat
  f1_score : Rat
  mrr : Rat
  num_retrieved : Nat
  num_relevant : Nat
deriving DecidableEq, Repr

/-- `evaluate_retrieval` (evaluator.py lines 35-84). -/
def evaluateRetrieval (retrieved_docs : List EvalDoc)
    (relevant_doc_ids : List Int) (k : Nat) : RetrievalMetrics :=
  let retrieved_ids := retrievedIds retrieved_docs k
  let relevant_retrieved : Nat :=
    (retrieved_ids.toFinset ∩ relevant_doc_ids.toFinset).card
  let precision : Rat := if k > 0 then (relevant_retrieved : Rat) / k else 0
  let recallK : Rat :=
    if relevant_doc_ids.length > 0 then
      (relevant_retrieved : Rat) / relevant_doc_ids.length
    else 0
  let f1 : Rat :=
    if precision + recallK > 0 then
      2 * (precision * recallK) / (precision + recallK)
    else 0
  { precision_k := precision
    recall_k := recallK
    f1_score := f1
    mrr := mrrLoop relevant_doc_ids retrieved_ids 1
    num_retrieved := retrieved_ids.length
    num_relevant := relevant_doc_ids.length }

/-- The 1-based rank of the first retrieved id that is relevant, `none`
when no retrieved id is relevant (specification-side description of the
MRR loop). -/
def firstHitRank (rel : List Int) : List Int → Option Nat
  | [] => none
  | x :: xs => if x ∈ rel then some 1 else (firstHitRank rel xs).map (· + 1)

end Evaluator

namespace Retriever

open VectorStore (Document)

/-- The error class the specification assigns to parameter validation in
diversity-aware retrieval. -/
inductive RetrievalError where
  | invalidParameter (msg : String)
deriving DecidableEq, Repr

/-- `mmr_retrieval` (retriever_module.py lines 33-50): a single
unconditional delegation to the backend's
`max_marginal_relevance_search(query, k, fetch_k, lambda_mult)` (the
parameter `backendMMR`); the function body contains no parameter
validation and no raise of its own. -/
def mmrRetrieval (backendMMR : String → Nat → Nat → Rat → List Document)
    (query : String) (k fetch_k : Nat) (lambda_mult : Rat) :
    Except RetrievalError (List Document) :=
  .ok (backendMMR query k fetch_k lambda_mult)

/-- Whether a retrieval result is a raised error. -/
def isError : Except RetrievalError (List Document) → Bool
  | .error _ => true
  | .ok _ => false

end Retriever

namespace InterviewPipeline

/-- `max` on a non-empty list returns the first element attaining the
maximal relevance score: the list splits around the returned element,
everything before it scores strictly less, and nothing scores more. -/
theorem pyMax_split (es : List Evaluation) : ∀ e : Evaluation,
    ∃ l₁ l₂, e :: es = l₁ ++ pyMax e es :: l₂ ∧
      (∀ y ∈ l₁, y.relevance_score < (pyMax e es).relevance_score) ∧
      (∀ y ∈ e :: es, y.relevance_score ≤ (pyMax e es).relevance_score) := by
  induction es with
  | nil =>
    intro e
    refine ⟨[], [], rfl, ?_, ?_⟩
    · intro y hy; simp at hy
    · intro y hy
      simp only [List.mem_singleton] at hy
      subst hy
      exact le_refl _
  | cons x xs ih =>
    intro e
    by_cases hx : x.relevance_score > e.relevance_score
    · have hpm : pyMax e (x :: xs) = pyMax x xs := by
        simp [pyMax, hx]
      obtain ⟨l₁, l₂, hsplit, hlt, hle⟩ := ih x
      rw [hpm]
      have hxb : x.relevance_score ≤ (pyMax x xs).relevance_score :=
        hle x (List.mem_cons_self _ _)
      refine ⟨e :: l₁, l₂, ?_, ?_, ?_⟩
      · rw [List.cons_append, ← hsplit]
      · intro y hy
        rcases List.mem_cons.mp hy with h | h
        · subst h; exact lt_of_lt_of_le hx hxb
        · exact hlt y h
      · intro y hy
        rcases List.mem_cons.mp hy with h | h
        · subst h; exact le_of_lt (lt_of_lt_of_le hx hxb)
        · exact hle y h
    · have hpm : pyMax e (x :: xs) = pyMax e xs := by
        simp [pyMax, hx]
      push_neg at hx
      obtain ⟨l₁, l₂, hsplit, hlt, hle⟩ := ih e
      rw [hpm]
      have heb : e.relevance_score ≤ (pyMax e xs).relevance_score :=
        hle e (List.mem_cons_self _ _)
      cases l₁ with
      | nil =>
        simp only [List.nil_append] at hsplit
        have he : e = pyMax e xs := (List.cons.injEq _ _ _ _ ▸ hsplit).1
        have hxs : xs = l₂ := (List.cons.injEq _ _ _ _ ▸ hsplit).2
        refine ⟨[], x :: l₂, ?_, ?_, ?_⟩
        · rw [List.nil_append, ← he, ← hxs]
        · intro y hy; simp at hy
        · intro y hy
          rcases List.mem_cons.mp hy with h | h
          · subst h; exact heb
          · rcases List.mem_cons.mp h with h2 | h2
            · subst h2; exact le_trans hx heb
            · exact hle y (List.mem_cons_of_mem _ h2)
      | cons a l₁t =>
        rw [List.cons_append] at hsplit
        have he : e = a := (List.cons.injEq _ _ _ _ ▸ hsplit).1
        have hxs : xs = l₁t ++ pyMax e xs :: l₂ := (List.cons.injEq _ _ _ _ ▸ hsplit).2
        have hab : a.relevance_score < (pyMax e xs).relevance_score :=
          hlt a (List.mem_cons_self _ _)
        have heab : e.relevance_score < (pyMax e xs).relevance_score := by
          rw [congrArg Evaluation.relevance_score he]; exact hab
        refine ⟨e :: x :: l₁t, l₂, ?_, ?_, ?_⟩
        · rw [List.cons_append, List.cons_append, ← hxs]
        · intro y hy
          rcases List.mem_cons.mp hy with h | h
          · subst h; exact heab
          · rcases List.mem_cons.mp h with h2 | h2
            · subst h2; exact lt_of_le_of_lt hx heab
            · exact hlt y (List.mem_cons_of_mem _ h2)
        · intro y hy
          rcases List.mem_cons.mp hy with h | h
          · subst h; exact heb
          · rcases List.mem_cons.mp h with h2 | h2
            · subst h2; exact le_trans hx heb
            · exact hle y (List.mem_cons_of_mem _ h2)

/-- Successful candidate evaluation produces one entry per input pair,
each related to its pair by `EvalRel`. -/
theorem evaluateCandidates_ok_forall2 :
    ∀ (l : List (Candidate × RawOutput)) (evs : List Evaluation),
      evaluateCandidates l = .ok evs → List.Forall₂ EvalRel l evs := by
  intro l
  induction l with
  | nil =>
    intro evs h
    simp only [evaluateCandidates, Except.ok.injEq] at h
    subst h
    exact List.Forall₂.nil
  | cons p rest ih =>
    obtain ⟨c, out⟩ := p
    intro evs h
    cases out with
    | malformed =>
      cases hrest : evaluateCandidates rest with
      | error e => rw [evaluateCandidates, hrest] at h; exact absurd h (by simp)
      | ok evs' =>
        rw [evaluateCandidates, hrest] at h
        simp only [Except.ok.injEq] at h
        subst h
        exact List.Forall₂.cons rfl (ih evs' hrest)
    | parsed j =>
      rcases hs : j.relevance_score with _ | s
      · rw [evaluateCandidates, hs] at h; exact absurd h (by simp [getKey])
      rcases hr : j.reasoning with _ | r
      · rw [evaluateCandidates, hs, hr] at h; exact absurd h (by simp [getKey])
      rcases hu : j.should_use with _ | u
      · rw [evaluateCandidates, hs, hr, hu] at h; exact absurd h (by simp [getKey])
      cases hrest : evaluateCandidates rest with
      | error e =>
        rw [evaluateCandidates, hs, hr, hu, hrest] at h
        exact absurd h (by simp [getKey])
      | ok evs' =>
        rw [evaluateCandidates, hs, hr, hu, hrest] at h
        simp only [getKey, Except.ok.injEq] at h
        subst h
        exact List.Forall₂.cons ⟨hs, hr, hu, rfl, rfl⟩ (ih evs' hrest)

/-- Each produced evaluation is related to some input pair. -/
theorem forall2_mem_right {l : List (Candidate × RawOutput)} {evs : List Evaluation}
    (h : List.Forall₂ EvalRel l evs) : ∀ ev ∈ evs, ∃ p ∈ l, EvalRel p ev := by
  induction h with
  | nil => intro ev hev; simp at hev
  | cons hrel _ ih =>
    intro ev hev
    rcases List.mem_cons.mp hev with h1 | h1
    · subst h1; exact ⟨_, List.mem_cons_self _ _, hrel⟩
    · obtain ⟨p, hp, hrel2⟩ := ih ev h1
      exact ⟨p, List.mem_cons_of_mem _ hp, hrel2⟩

/-- Each input pair has a related produced evaluation. -/
theorem forall2_mem_left {l : List (Candidate × RawOutput)} {evs : List Evaluation}
    (h : List.Forall₂ EvalRel l evs) : ∀ p ∈ l, ∃ ev ∈ evs, EvalRel p ev := by
  induction h with
  | nil => intro p hp; simp at hp
  | cons hrel _ ih =>
    intro p hp
    rcases List.mem_cons.mp hp with h1 | h1
    · subst h1; exact ⟨_, List.mem_cons_self _ _, hrel⟩
    · obtain ⟨ev, hev, hrel2⟩ := ih p h1
      exact ⟨ev, List.mem_cons_of_mem _ hev, hrel2⟩

/-- An evaluation related to a malformed response is the sentinel. -/
theorem EvalRel_malformed {p : Candidate × RawOutput} {ev : Evaluation}
    (h : EvalRel p ev) (hm : p.2 = .malformed) : ev = fallbackEvaluation p.1 := by
  obtain ⟨c, out⟩ := p
  cases out with
  | malformed => exact h
  | parsed j => exact absurd hm (by simp)

/-- Every produced evaluation is either the sentinel of a malformed
response or carries a successfully parsed score. -/
theorem EvalRel_shape {p : Candidate × RawOutput} {ev : Evaluation}
    (h : EvalRel p ev) :
    (p.2 = .malformed ∧ ev = fallbackEvaluation p.1) ∨
    (∃ j, p.2 = .parsed j ∧ j.relevance_score = some ev.relevance_score) := by
  obtain ⟨c, out⟩ := p
  cases out with
  | malformed => exact Or.inl ⟨rfl, h⟩
  | parsed j => exact Or.inr ⟨j, rfl, h.1⟩

/-- Every produced evaluation carries its candidate's answer text and
metadata unchanged. -/
theorem EvalRel_answer {p : Candidate × RawOutput} {ev : Evaluation}
    (h : EvalRel p ev) : ev.answer = p.1.answer ∧ ev.metadata = p.1.metadata := by
  obtain ⟨c, out⟩ := p
  cases out with
  | malformed => rw [h]; exact ⟨rfl, rfl⟩
  | parsed j => exact ⟨h.2.2.2.1, h.2.2.2.2⟩

/-- A parsed response missing a required key makes the whole evaluation
loop raise `KeyError`. -/
theorem evaluateCandidates_missing_error :
    ∀ (l : List (Candidate × RawOutput)), (∃ p ∈ l, MissingKey p.2) →
      evaluateCandidates l = .error .keyError := by
  intro l
  induction l with
  | nil => intro h; obtain ⟨p, hp, _⟩ := h; simp at hp
  | cons q rest ih =>
    intro h
    obtain ⟨c, out⟩ := q
    obtain ⟨p, hp, hm⟩ := h
    rcases List.mem_cons.mp hp with h1 | h1
    · subst h1
      cases out with
      | malformed => exact absurd hm (by simp [MissingKey])
      | parsed j =>
        rcases hs : j.relevance_score with _ | s
        · rw [evaluateCandidates, hs]; simp [getKey]
        rcases hr : j.reasoning with _ | r
        · rw [evaluateCandidates, hs, hr]; simp [getKey]
        rcases hu : j.should_use with _ | u
        · rw [evaluateCandidates, hs, hr, hu]; simp [getKey]
        · exact absurd hm (by simp [MissingKey, hs, hr, hu])
    · have hrest : evaluateCandidates rest = .error .keyError := ih ⟨p, h1, hm⟩
      cases out with
      | malformed => rw [evaluateCandidates, hrest]
      | parsed j =>
        rcases hs : j.relevance_score with _ | s
        · rw [evaluateCandidates, hs]; simp [getKey]
        rcases hr : j.reasoning with _ | r
        · rw [evaluateCandidates, hs, hr]; simp [getKey]
        rcases hu : j.should_use with _ | u
        · rw [evaluateCandidates, hs, hr, hu]; simp [getKey]
        · rw [evaluateCandidates, hs, hr, hu, hrest]; simp [getKey]

/-- Reduction of `answer_question` once evaluation produced a non-empty
list: the decision is one of the two branch records, keyed on the best
score against the threshold. -/
theorem answerQuestion_ok_branch (gen : String → String → String)
    (question : String) (candidates : List Candidate)
    (outputs : List RawOutput) (minScore : Int)
    (e : Evaluation) (es : List Evaluation)
    (hok : evaluateCandidates (candidates.zip outputs) = .ok (e :: es)) :
    answerQuestion gen question candidates outputs minScore =
      (if (pyMax e es).relevance_score ≥ minScore then
        .ok { answer := (pyMax e es).answer, source := .PREPARED,
              confidence := (pyMax e es).relevance_score,
              reasoning := (pyMax e es).reasoning,
              candidates_evaluated := candidates.length,
              metadata := some (pyMax e es).metadata, used_contexts := none }
      else
        .ok { answer := gen question (buildContext candidates),
              source := .GENERATED,
              confidence := (pyMax e es).relevance_score,
              reasoning := "No perfect match found (best: " ++
                toString (pyMax e es).relevance_score ++
                "/10). Generated answer using your prepared materials as context.",
              candidates_evaluated := candidates.length,
              metadata := none,
              used_contexts := some (candidates.take 3).length }) := by
  unfold answerQuestion
  rw [hok]
  rfl

/-- C2: the spec requires that with zero retrieved candidates the system
proceeds to GENERATE with empty context without raising; the code instead
reaches `max(evaluations, ...)` with an empty list, which raises
`ValueError`.  This theorem evaluates the code at the failing input: for
every generator, question and threshold, an empty candidate list makes
`answer_question` raise instead of returning a GENERATED decision. -/
theorem answerQuestion_empty_candidates_raises
    (gen : String → String → String) (question : String)
    (outputs : List RawOutput) (minScore : Int) :
    answerQuestion gen question [] outputs minScore =
      .error (.valueError "max() arg is an empty sequence") := rfl

/-- C1: for a non-empty candidate list whose evaluations are produced,
`answer_question` selects the evaluation with the maximum relevance
score, ties broken by first-seen retrieval order (everything before the
selected entry scores strictly less, nothing scores more); the selected
entry carries a candidate's stored answer text verbatim, and whenever its
score is `>=` the threshold (inclusive) the returned Decision is
PREPARED with that text and confidence equal to that score. -/
theorem answerQuestion_selects_first_max (gen : String → String → String)
    (question : String) (candidates : List Candidate)
    (outputs : List RawOutput) (minScore : Int)
    (evs : List Evaluation) (b : Evaluation)
    (_hne : candidates ≠ [])
    (_hlen : outputs.length = candidates.length)
    (hok : evaluateCandidates (candidates.zip outputs) = .ok evs)
    (hb : bestEvaluation evs = some b) :
    (∃ l₁ l₂, evs = l₁ ++ b :: l₂ ∧
        (∀ y ∈ l₁, y.relevance_score < b.relevance_score) ∧
        (∀ y ∈ evs, y.relevance_score ≤ b.relevance_score)) ∧
    (∃ c ∈ candidates, b.answer = c.answer ∧ b.metadata = c.metadata) ∧
    (b.relevance_score ≥ minScore →
      answerQuestion gen question candidates outputs minScore =
        .ok { answer := b.answer, source := .PREPARED,
              confidence := b.relevance_score, reasoning := b.reasoning,
              candidates_evaluated := candidates.length,
              metadata := some b.metadata, used_contexts := none }) := by
  cases evs with
  | nil => exact absurd hb (by simp [bestEvaluation])
  | cons e es =>
    have hbe : pyMax e es = b := by
      simpa [bestEvaluation] using hb
    obtain ⟨l₁, l₂, hsplit, hlt, hle⟩ := pyMax_split es e
    rw [hbe] at hsplit hlt hle
    have hbmem : b ∈ e :: es := by
      rw [hsplit]
      exact List.mem_append_right _ (List.mem_cons_self _ _)
    have f2 := evaluateCandidates_ok_forall2 _ _ hok
    obtain ⟨p, hp, hrel⟩ := forall2_mem_right f2 b hbmem
    obtain ⟨hans, hmeta⟩ := EvalRel_answer hrel
    refine ⟨⟨l₁, l₂, hsplit, hlt, hle⟩, ?_, ?_⟩
    · obtain ⟨c, o⟩ := p
      exact ⟨c, (List.of_mem_zip hp).1, hans, hmeta⟩
    · intro hge
      rw [answerQuestion_ok_branch gen question candidates outputs minScore e es hok,
        hbe, if_pos hge]

/-- Witness for the C1 theorem: two candidates judged 8 and 8, threshold
7; the first candidate's prepared text is returned. -/
theorem answerQuestion_selects_first_max_witness :
    ([Candidate.mk "Story A" [], Candidate.mk "Story B" []] ≠ []) ∧
    ([RawOutput.parsed ⟨some 8, some "good", some true⟩,
      RawOutput.parsed ⟨some 8, some "alt", some true⟩].length =
        [Candidate.mk "Story A" [], Candidate.mk "Story B" []].length) ∧
    evaluateCandidates ([Candidate.mk "Story A" [], Candidate.mk "Story B" []].zip
        [RawOutput.parsed ⟨some 8, some "good", some true⟩,
         RawOutput.parsed ⟨some 8, some "alt", some true⟩]) =
      .ok [Evaluation.mk "Story A" [] 8 "good" true,
           Evaluation.mk "Story B" [] 8 "alt" true] ∧
    bestEvaluation [Evaluation.mk "Story A" [] 8 "good" true,
        Evaluation.mk "Story B" [] 8 "alt" true] =
      some (Evaluation.mk "Story A" [] 8 "good" true) ∧
    ((∃ l₁ l₂, [Evaluation.mk "Story A" [] 8 "good" true,
          Evaluation.mk "Story B" [] 8 "alt" true] =
            l₁ ++ Evaluation.mk "Story A" [] 8 "good" true :: l₂ ∧
        (∀ y ∈ l₁, y.relevance_score <
          (Evaluation.mk "Story A" [] 8 "good" true).relevance_score) ∧
        (∀ y ∈ [Evaluation.mk "Story A" [] 8 "good" true,
            Evaluation.mk "Story B" [] 8 "alt" true], y.relevance_score ≤
          (Evaluation.mk "Story A" [] 8 "good" true).relevance_score)) ∧
      (∃ c ∈ [Candidate.mk "Story A" [], Candidate.mk "Story B" []],
        (Evaluation.mk "Story A" [] 8 "good" true).answer = c.answer ∧
        (Evaluation.mk "Story A" [] 8 "good" true).metadata = c.metadata) ∧
      ((Evaluation.mk "Story A" [] 8 "good" true).relevance_score ≥ 7 →
        answerQuestion (fun _ ctx => ctx) "q"
            [Candidate.mk "Story A" [], Candidate.mk "Story B" []]
            [RawOutput.parsed ⟨some 8, some "good", some true⟩,
             RawOutput.parsed ⟨some 8, some "alt", some true⟩] 7 =
          .ok { answer := (Evaluation.mk "Story A" [] 8 "good" true).answer,
                source := .PREPARED,
                confidence := (Evaluation.mk "Story A" [] 8 "good" true).relevance_score,
                reasoning := (Evaluation.mk "Story A" [] 8 "good" true).reasoning,
                candidates_evaluated :=
                  [Candidate.mk "Story A" [], Candidate.mk "Story B" []].length,
                metadata := some (Evaluation.mk "Story A" [] 8 "good" true).metadata,
                used_contexts := none })) :=
  ⟨by decide, rfl, rfl, rfl,
    answerQuestion_selects_first_max (fun _ ctx => ctx) "q" _ _ 7 _ _
      (by decide) rfl rfl rfl⟩

/-- C3 counterexample: a judgment response that parses as JSON but lacks
the required `relevance_score` key raises `KeyError` and aborts the
batch instead of being recorded with the sentinel score. -/
theorem evaluateCandidates_missing_key_counterexample :
    evaluateCandidates
        [(Candidate.mk "A" [], .parsed ⟨none, some "relevant", some true⟩)] =
      .error .keyError ∧
    (Except.error PyError.keyError : Except PyError (List Evaluation)) ≠
      .ok [fallbackEvaluation (Candidate.mk "A" [])] :=
  ⟨rfl, fun h => nomatch h⟩

/-- C3 amended: a candidate whose judgment response is malformed JSON
does not abort the batch: it is recorded as the sentinel (score 0,
reasoning "Evaluation failed", `should_use = false`) in place, and
evaluation continues through the whole batch (one entry per candidate);
a parsed response missing a required key, however, raises `KeyError` and
aborts the batch; assuming successfully parsed scores are at least 1, a
sentinel entry can only be selected best when every entry scores 0. -/
theorem evaluateCandidates_degradation (l : List (Candidate × RawOutput)) :
    (∀ p ∈ l, MissingKey p.2 → evaluateCandidates l = .error .keyError) ∧
    (∀ evs, evaluateCandidates l = .ok evs →
      evs.length = l.length ∧
      (∀ i (hi : i < l.length) (hi2 : i < evs.length),
        (l.get ⟨i, hi⟩).2 = .malformed →
          evs.get ⟨i, hi2⟩ = fallbackEvaluation (l.get ⟨i, hi⟩).1) ∧
      (∀ b, bestEvaluation evs = some b →
        (∀ p ∈ l, ∀ j, p.2 = .parsed j →
          ∀ s, j.relevance_score = some s → 1 ≤ s) →
        b.relevance_score = 0 →
        ∀ ev ∈ evs, ev.relevance_score = 0 ∧
          ev.reasoning = "Evaluation failed" ∧ ev.should_use = false)) := by
  refine ⟨?_, ?_⟩
  · intro p hp hm
    exact evaluateCandidates_missing_error l ⟨p, hp, hm⟩
  · intro evs hok
    have f2 := evaluateCandidates_ok_forall2 l evs hok
    have hget := List.forall₂_iff_get.mp f2
    refine ⟨hget.1.symm, ?_, ?_⟩
    · intro i hi hi2 hmal
      exact EvalRel_malformed (hget.2 i hi hi2) hmal
    · intro b hb hmin hb0 ev hev
      obtain ⟨p, hp, hrel⟩ := forall2_mem_right f2 ev hev
      rcases EvalRel_shape hrel with ⟨_, hfb⟩ | ⟨j, hpj, hjs⟩
      · rw [hfb]; exact ⟨rfl, rfl, rfl⟩
      · exfalso
        have h1 : 1 ≤ ev.relevance_score := hmin p hp j hpj _ hjs
        have hle : ev.relevance_score ≤ b.relevance_score := by
          cases evs with
          | nil => simp at hev
          | cons e es =>
            have hbe : pyMax e es = b := by
              simpa [bestEvaluation] using hb
            obtain ⟨_, _, _, _, hle2⟩ := pyMax_split es e
            rw [hbe] at hle2
            exact hle2 ev hev
        omega

/-- Witness for the amended C3 theorem: one malformed response among two;
the batch completes with the sentinel recorded at position 0. -/
theorem evaluateCandidates_degradation_witness :
    evaluateCandidates
        [(Candidate.mk "A" [], .malformed),
         (Candidate.mk "B" [], .parsed ⟨some 5, some "r", some true⟩)] =
      .ok [fallbackEvaluation (Candidate.mk "A" []),
           Evaluation.mk "B" [] 5 "r" true] ∧
    [fallbackEvaluation (Candidate.mk "A" []),
        Evaluation.mk "B" [] 5 "r" true].get ⟨0, by decide⟩ =
      fallbackEvaluation
        ([(Candidate.mk "A" [], RawOutput.malformed),
          (Candidate.mk "B" [], .parsed ⟨some 5, some "r", some true⟩)].get
            ⟨0, by decide⟩).1 :=
  ⟨rfl,
    ((evaluateCandidates_degradation
        [(Candidate.mk "A" [], .malformed),
         (Candidate.mk "B" [], .parsed ⟨some 5, some "r", some true⟩)]).2
      [fallbackEvaluation (Candidate.mk "A" []), Evaluation.mk "B" [] 5 "r" true]
      rfl).2.1 0 (by decide) (by decide) rfl⟩

/-- The context of `_generate_answer` only ever consumes the first three
candidates, in the order they were retrieved. -/
theorem buildContext_take3 (candidates : List Candidate) :
    buildContext (candidates.take 3) = buildContext candidates := by
  simp [buildContext, List.take_take]

/-- C4 counterexample: four candidates judged 1, 1, 1 and 6 against
threshold 7.  The code's generation context is the first three
candidates in retrieval order (A, B, C) and omits the best-scoring
candidate D, whereas the top 3 by the selection ranking are D, A, B;
the two context strings differ. -/
theorem generatedContext_not_ranked_counterexample :
    evaluateCandidates
        ([Candidate.mk "A" [], Candidate.mk "B" [], Candidate.mk "C" [],
          Candidate.mk "D" []].zip
         [.parsed ⟨some 1, some "r", some false⟩,
          .parsed ⟨some 1, some "r", some false⟩,
          .parsed ⟨some 1, some "r", some false⟩,
          .parsed ⟨some 6, some "r", some false⟩]) =
      .ok [Evaluation.mk "A" [] 1 "r" false, Evaluation.mk "B" [] 1 "r" false,
           Evaluation.mk "C" [] 1 "r" false, Evaluation.mk "D" [] 6 "r" false] ∧
    answerQuestion (fun _ ctx => ctx) "q"
        [Candidate.mk "A" [], Candidate.mk "B" [], Candidate.mk "C" [],
         Candidate.mk "D" []]
        [.parsed ⟨some 1, some "r", some false⟩,
         .parsed ⟨some 1, some "r", some false⟩,
         .parsed ⟨some 1, some "r", some false⟩,
         .parsed ⟨some 6, some "r", some false⟩] 7 =
      .ok { answer := "Experience 1:\nA\n\n---\n\nExperience 2:\nB\n\n---\n\nExperience 3:\nC",
            source := .GENERATED, confidence := 6,
            reasoning := "No perfect match found (best: 6/10). Generated answer using your prepared materials as context.",
            candidates_evaluated := 4, metadata := none,
            used_contexts := some 3 } ∧
    specRankedContext
        [Evaluation.mk "A" [] 1 "r" false, Evaluation.mk "B" [] 1 "r" false,
         Evaluation.mk "C" [] 1 "r" false, Evaluation.mk "D" [] 6 "r" false] =
      "Experience 1:\nD\n\n---\n\nExperience 2:\nA\n\n---\n\nExperience 3:\nB" ∧
    ("Experience 1:\nA\n\n---\n\nExperience 2:\nB\n\n---\n\nExperience 3:\nC" ≠
      "Experience 1:\nD\n\n---\n\nExperience 2:\nA\n\n---\n\nExperience 3:\nB") :=
  ⟨rfl, rfl, rfl, by decide⟩

/-- C4 amended: when the best score is strictly below the threshold,
`answer_question` returns a GENERATED Decision whose confidence is the
failed best score and whose reasoning states
"No perfect match found (best: X/10)"; the generation context is built
from the first 3 candidates in retrieval order (not re-ranked by
relevance score), each labeled and joined with the separator, and
`used_contexts` counts those candidates. -/
theorem answerQuestion_generated_branch (gen : String → String → String)
    (question : String) (candidates : List Candidate)
    (outputs : List RawOutput) (minScore : Int)
    (evs : List Evaluation) (b : Evaluation)
    (hok : evaluateCandidates (candidates.zip outputs) = .ok evs)
    (hb : bestEvaluation evs = some b)
    (hlt : b.relevance_score < minScore) :
    answerQuestion gen question candidates outputs minScore =
      .ok { answer := gen question (buildContext (candidates.take 3)),
            source := .GENERATED,
            confidence := b.relevance_score,
            reasoning := "No perfect match found (best: " ++
              toString b.relevance_score ++
              "/10). Generated answer using your prepared materials as context.",
            candidates_evaluated := candidates.length,
            metadata := none,
            used_contexts := some (candidates.take 3).length } := by
  cases evs with
  | nil => exact absurd hb (by simp [bestEvaluation])
  | cons e es =>
    have hbe : pyMax e es = b := by
      simpa [bestEvaluation] using hb
    rw [answerQuestion_ok_branch gen question candidates outputs minScore e es hok,
      hbe, if_neg (not_le.mpr hlt), buildContext_take3]

/-- Witness for the amended C4 theorem: one candidate judged 4 against
threshold 7. -/
theorem answerQuestion_generated_branch_witness :
    evaluateCandidates ([Candidate.mk "A" []].zip
        [.parsed ⟨some 4, some "partial", some false⟩]) =
      .ok [Evaluation.mk "A" [] 4 "partial" false] ∧
    bestEvaluation [Evaluation.mk "A" [] 4 "partial" false] =
      some (Evaluation.mk "A" [] 4 "partial" false) ∧
    (Evaluation.mk "A" [] 4 "partial" false).relevance_score < 7 ∧
    answerQuestion (fun _ ctx => ctx) "q" [Candidate.mk "A" []]
        [.parsed ⟨some 4, some "partial", some false⟩] 7 =
      .ok { answer := (fun _ ctx => ctx : String → String → String) "q"
              (buildContext ([Candidate.mk "A" []].take 3)),
            source := .GENERATED,
            confidence := (Evaluation.mk "A" [] 4 "partial" false).relevance_score,
            reasoning := "No perfect match found (best: " ++
              toString (Evaluation.mk "A" [] 4 "partial" false).relevance_score ++
              "/10). Generated answer using your prepared materials as context.",
            candidates_evaluated := [Candidate.mk "A" []].length,
            metadata := none,
            used_contexts := some ([Candidate.mk "A" []].take 3).length } :=
  ⟨rfl, rfl, by decide,
    answerQuestion_generated_branch (fun _ ctx => ctx) "q" [Candidate.mk "A" []]
      [.parsed ⟨some 4, some "partial", some false⟩] 7
      [Evaluation.mk "A" [] 4 "partial" false]
      (Evaluation.mk "A" [] 4 "partial" false) rfl rfl (by decide)⟩

/-- C8 counterexample: a single candidate whose judgment response is
malformed JSON yields a Decision with confidence 0, outside the claimed
range `[1, 10]`. -/
theorem decision_confidence_zero_counterexample :
    answerQuestion (fun _ ctx => ctx) "q" [Candidate.mk "A" []]
        [.malformed] 7 =
      .ok { answer := "Experience 1:\nA", source := .GENERATED,
            confidence := 0,
            reasoning := "No perfect match found (best: 0/10). Generated answer using your prepared materials as context.",
            candidates_evaluated := 1, metadata := none,
            used_contexts := some 1 } ∧
    ¬ (1 ≤ (0 : Int)) :=
  ⟨rfl, by decide⟩

/-- C8 amended: every Decision's confidence equals the best evaluation's
relevance score regardless of branch; provided every successfully parsed
score lies in `[1, 10]`, the confidence lies in `[1, 10]` whenever at
least one response parsed, and a confidence of 0 means every response
was malformed. -/
theorem decision_confidence_range (gen : String → String → String)
    (question : String) (candidates : List Candidate)
    (outputs : List RawOutput) (minScore : Int)
    (evs : List Evaluation) (b : Evaluation) (d : Decision)
    (hok : evaluateCandidates (candidates.zip outputs) = .ok evs)
    (hb : bestEvaluation evs = some b)
    (hd : answerQuestion gen question candidates outputs minScore = .ok d) :
    d.confidence = b.relevance_score ∧
    ((∀ p ∈ candidates.zip outputs, ∀ j, p.2 = .parsed j →
        ∀ s, j.relevance_score = some s → 1 ≤ s ∧ s ≤ 10) →
      ((∃ p ∈ candidates.zip outputs, ∃ j, p.2 = .parsed j) →
        1 ≤ d.confidence ∧ d.confidence ≤ 10) ∧
      (d.confidence = 0 → ∀ p ∈ candidates.zip outputs, p.2 = .malformed)) := by
  cases evs with
  | nil => exact absurd hb (by simp [bestEvaluation])
  | cons e es =>
    have hbe : pyMax e es = b := by
      simpa [bestEvaluation] using hb
    have hconf : d.confidence = b.relevance_score := by
      rw [answerQuestion_ok_branch gen question candidates outputs minScore e es hok,
        hbe] at hd
      by_cases hge : b.relevance_score ≥ minScore
      · rw [if_pos hge] at hd
        simp only [Except.ok.injEq] at hd
        rw [← hd]
      · rw [if_neg hge] at hd
        simp only [Except.ok.injEq] at hd
        rw [← hd]
    obtain ⟨l₁, l₂, hsplit, _, hle⟩ := pyMax_split es e
    rw [hbe] at hsplit hle
    have hbmem : b ∈ e :: es := by
      rw [hsplit]
      exact List.mem_append_right _ (List.mem_cons_self _ _)
    have f2 := evaluateCandidates_ok_forall2 _ _ hok
    refine ⟨hconf, ?_⟩
    intro hrange
    constructor
    · rintro ⟨p, hp, j, hpj⟩
      obtain ⟨c, o⟩ := p
      simp only at hpj
      subst hpj
      obtain ⟨ev, hev, hrel⟩ := forall2_mem_left f2 (c, .parsed j) hp
      have hevs : 1 ≤ ev.relevance_score ∧ ev.relevance_score ≤ 10 :=
        hrange (c, .parsed j) hp j rfl ev.relevance_score hrel.1
      have hevb : ev.relevance_score ≤ b.relevance_score := hle ev hev
      obtain ⟨pb, hpb, hrelb⟩ := forall2_mem_right f2 b hbmem
      have hb10 : b.relevance_score ≤ 10 := by
        rcases EvalRel_shape hrelb with ⟨_, hfb⟩ | ⟨jb, hpjb, hjbs⟩
        · rw [hfb]; norm_num [fallbackEvaluation]
        · exact (hrange pb hpb jb hpjb b.relevance_score hjbs).2
      rw [hconf]
      omega
    · intro h0 p hp
      obtain ⟨c, o⟩ := p
      cases o with
      | malformed => rfl
      | parsed j =>
        exfalso
        obtain ⟨ev, hev, hrel⟩ := forall2_mem_left f2 (c, .parsed j) hp
        have h1 : 1 ≤ ev.relevance_score :=
          (hrange (c, .parsed j) hp j rfl ev.relevance_score hrel.1).1
        have h2 : ev.relevance_score ≤ b.relevance_score := hle ev hev
        have h3 : b.relevance_score = 0 := by rw [← hconf]; exact h0
        omega

/-- Witness for the amended C8 theorem: one malformed and one parsed
response scoring 5; the Decision's confidence is 5, inside `[1, 10]`. -/
theorem decision_confidence_range_witness :
    evaluateCandidates ([Candidate.mk "A" [], Candidate.mk "B" []].zip
        [RawOutput.malformed, .parsed ⟨some 5, some "r", some true⟩]) =
      .ok [fallbackEvaluation (Candidate.mk "A" []),
           Evaluation.mk "B" [] 5 "r" true] ∧
    bestEvaluation [fallbackEvaluation (Candidate.mk "A" []),
        Evaluation.mk "B" [] 5 "r" true] =
      some (Evaluation.mk "B" [] 5 "r" true) ∧
    answerQuestion (fun _ ctx => ctx) "q"
        [Candidate.mk "A" [], Candidate.mk "B" []]
        [RawOutput.malformed, .parsed ⟨some 5, some "r", some true⟩] 7 =
      .ok { answer := "Experience 1:\nA\n\n---\n\nExperience 2:\nB",
            source := .GENERATED, confidence := 5,
            reasoning := "No perfect match found (best: 5/10). Generated answer using your prepared materials as context.",
            candidates_evaluated := 2, metadata := none,
            used_contexts := some 2 } ∧
    ({ answer := "Experience 1:\nA\n\n---\n\nExperience 2:\nB",
       source := .GENERATED, confidence := 5,
       reasoning := "No perfect match found (best: 5/10). Generated answer using your prepared materials as context.",
       candidates_evaluated := 2, metadata := none,
       used_contexts := some 2 : Decision}).confidence =
      (Evaluation.mk "B" [] 5 "r" true).relevance_score :=
  ⟨rfl, rfl, rfl,
    (decision_confidence_range (fun _ ctx => ctx) "q"
      [Candidate.mk "A" [], Candidate.mk "B" []]
      [RawOutput.malformed, .parsed ⟨some 5, some "r", some true⟩] 7
      [fallbackEvaluation (Candidate.mk "A" []), Evaluation.mk "B" [] 5 "r" true]
      (Evaluation.mk "B" [] 5 "r" true) _ rfl rfl rfl).1⟩

end InterviewPipeline

namespace Retriever

open VectorStore (Document)

/-- C7 counterexample: with `fetch_k = 2 < 4 = k`, `mmr_retrieval` does
not fail with `InvalidParameterError`; it returns the backend's result
(here `.ok []`), refuting the claim at this concrete input. -/
theorem mmrRetrieval_no_validation_counterexample :
    2 < 4 ∧
    mmrRetrieval (fun _ _ _ _ => []) "query" 4 2 ((1 : Rat) / 2) = .ok [] ∧
    isError (mmrRetrieval (fun _ _ _ _ => []) "query" 4 2 ((1 : Rat) / 2)) = false := by
  exact ⟨by decide, rfl, rfl⟩

/-- C7 amended: `mmr_retrieval` performs no `fetch_k ≥ k` validation:
even when `fetch_k < k` it raises nothing and delegates the call, with
all parameters unchanged, to the backend's
`max_marginal_relevance_search`. -/
theorem mmrRetrieval_delegates_without_validation
    (backendMMR : String → Nat → Nat → Rat → List Document)
    (query : String) (k fetch_k : Nat) (lambda_mult : Rat)
    (_hlt : fetch_k < k) :
    mmrRetrieval backendMMR query k fetch_k lambda_mult =
      .ok (backendMMR query k fetch_k lambda_mult) := rfl

/-- Witness for the amended C7 theorem at `k = 4`, `fetch_k = 2`. -/
theorem mmrRetrieval_delegates_without_validation_witness :
    2 < 4 ∧
    mmrRetrieval (fun _ _ _ _ => ([] : List Document)) "q" 4 2 0 =
      .ok ((fun _ _ _ _ => ([] : List Document)) "q" 4 2 0) :=
  ⟨by decide,
    mmrRetrieval_delegates_without_validation (fun _ _ _ _ => []) "q" 4 2 0 (by decide)⟩

end Retriever

namespace VectorStore

/-- C10: on an uninitialized store, `get_collection_stats` returns the
error mapping instead of raising, while `add_documents` and
`similarity_search` raise `ValueError`. -/
theorem uninitialized_store_behaviour (s : Manager)
    (hs : s.vectorstore = none) :
    getCollectionStats s = .error "Vector store not initialized" ∧
    (∀ hashFn documents, addDocuments hashFn s documents =
        .error (.valueError "Vector store not initialized. Create or load first.")) ∧
    (∀ query k score_threshold, similaritySearch s query k score_threshold =
        .error (.valueError "Vector store not initialized")) := by
  refine ⟨?_, ?_, ?_⟩
  · unfold getCollectionStats; rw [hs]
  · intro hashFn documents; unfold addDocuments; rw [hs]
  · intro query k score_threshold; unfold similaritySearch; rw [hs]

/-- Witness for the C10 theorem on a concrete fresh manager. -/
theorem uninitialized_store_behaviour_witness :
    (Manager.mk "answers" "text-embedding-3-small" none).vectorstore = none ∧
    getCollectionStats (Manager.mk "answers" "text-embedding-3-small" none) =
      .error "Vector store not initialized" ∧
    (∀ hashFn documents,
      addDocuments hashFn (Manager.mk "answers" "text-embedding-3-small" none) documents =
        .error (.valueError "Vector store not initialized. Create or load first.")) ∧
    (∀ query k score_threshold,
      similaritySearch (Manager.mk "answers" "text-embedding-3-small" none) query k score_threshold =
        .error (.valueError "Vector store not initialized")) :=
  ⟨rfl, uninitialized_store_behaviour (Manager.mk "answers" "text-embedding-3-small" none) rfl⟩

/-- C9: with a `None` or `0` score threshold, `similarity_search` runs the
plain top-k search; with a non-zero threshold it returns exactly the
scored top-k entries whose score is `>= threshold`, in order, which is
always a subsequence of the plain top-k result. -/
theorem similaritySearch_threshold_filter (b : Backend) (s : Manager)
    (hs : s.vectorstore = some b) (query : String) (k : Nat) :
    similaritySearch s query k none = .ok (b.plainSearch query k) ∧
    similaritySearch s query k (some 0) = .ok (b.plainSearch query k) ∧
    ∀ t : Rat, t ≠ 0 →
      similaritySearch s query k (some t) =
        .ok (((b.search_with_score query k).filter
          (fun p => decide (p.2 ≥ t))).map Prod.fst) ∧
      (((b.search_with_score query k).filter
          (fun p => decide (p.2 ≥ t))).map Prod.fst).Sublist
        (b.plainSearch query k) := by
  refine ⟨?_, ?_, ?_⟩
  · unfold similaritySearch; rw [hs]; rfl
  · unfold similaritySearch; rw [hs]; rfl
  · intro t ht
    constructor
    · unfold similaritySearch
      rw [hs]
      have htr : thresholdTruthy (some t) = true := by
        simp [thresholdTruthy, ht]
      rw [htr]
      simp
    · exact List.Sublist.map Prod.fst (List.filter_sublist _)

/-- Witness for the C9 theorem on a concrete one-document backend and a
concrete non-zero threshold. -/
theorem similaritySearch_threshold_filter_witness :
    (Manager.mk "c" "m" (some (Backend.mk [Document.mk "d" []]
        (fun _ _ => [(Document.mk "d" [], (3 : Rat))])))).vectorstore =
      some (Backend.mk [Document.mk "d" []]
        (fun _ _ => [(Document.mk "d" [], (3 : Rat))])) ∧
    (2 : Rat) ≠ 0 ∧
    (similaritySearch (Manager.mk "c" "m" (some (Backend.mk [Document.mk "d" []]
          (fun _ _ => [(Document.mk "d" [], (3 : Rat))])))) "q" 4 (some 2) =
        .ok ((((Backend.mk [Document.mk "d" []]
          (fun _ _ => [(Document.mk "d" [], (3 : Rat))])).search_with_score "q" 4).filter
          (fun p => decide (p.2 ≥ (2 : Rat)))).map Prod.fst) ∧
      ((((Backend.mk [Document.mk "d" []]
          (fun _ _ => [(Document.mk "d" [], (3 : Rat))])).search_with_score "q" 4).filter
          (fun p => decide (p.2 ≥ (2 : Rat)))).map Prod.fst).Sublist
        ((Backend.mk [Document.mk "d" []]
          (fun _ _ => [(Document.mk "d" [], (3 : Rat))])).plainSearch "q" 4)) :=
  ⟨rfl, by decide,
    (similaritySearch_threshold_filter _ _ rfl "q" 4).2.2 2 (by decide)⟩

end VectorStore

namespace Evaluator

/-- The MRR loop computes the reciprocal of the 1-based rank of the first
relevant hit, shifted by the starting index. -/
theorem mrrLoop_eq (rel : List Int) : ∀ (l : List Int) (i : Nat), 1 ≤ i →
    mrrLoop rel l i = (match firstHitRank rel l with
      | some r => (1 : Rat) / ((i - 1 + r : Nat) : Rat)
      | none => 0) := by
  intro l
  induction l with
  | nil => intro i _; simp [mrrLoop, firstHitRank]
  | cons x xs ih =>
    intro i hi
    by_cases hx : x ∈ rel
    · have hidx : i - 1 + 1 = i := by omega
      simp [mrrLoop, firstHitRank, hx, hidx]
    · have hstep := ih (i + 1) (by omega)
      simp only [mrrLoop, firstHitRank, if_neg hx, hstep]
      cases hfr : firstHitRank rel xs with
      | none => simp
      | some r =>
        have harg : i + 1 - 1 + r = i - 1 + (r + 1) := by omega
        simp [harg]
        rw [Nat.cast_sub hi]
        ring

/-- `precision@k` as computed by `evaluate_retrieval`. -/
theorem evaluateRetrieval_precision (retrieved_docs : List EvalDoc)
    (relevant_doc_ids : List Int) (k : Nat) :
    (evaluateRetrieval retrieved_docs relevant_doc_ids k).precision_k =
      if k > 0 then
        ((((retrievedIds retrieved_docs k).toFinset ∩
          relevant_doc_ids.toFinset).card : Rat)) / k
      else 0 := rfl

/-- `recall@k` as computed by `evaluate_retrieval`. -/
theorem evaluateRetrieval_recall (retrieved_docs : List EvalDoc)
    (relevant_doc_ids : List Int) (k : Nat) :
    (evaluateRetrieval retrieved_docs relevant_doc_ids k).recall_k =
      if relevant_doc_ids.length > 0 then
        ((((retrievedIds retrieved_docs k).toFinset ∩
          relevant_doc_ids.toFinset).card : Rat)) / relevant_doc_ids.length
      else 0 := rfl

/-- `f1` as computed by `evaluate_retrieval`, in terms of the other two
fields. -/
theorem evaluateRetrieval_f1 (retrieved_docs : List EvalDoc)
    (relevant_doc_ids : List Int) (k : Nat) :
    (evaluateRetrieval retrieved_docs relevant_doc_ids k).f1_score =
      if (evaluateRetrieval retrieved_docs relevant_doc_ids k).precision_k +
          (evaluateRetrieval retrieved_docs relevant_doc_ids k).recall_k > 0 then
        2 * ((evaluateRetrieval retrieved_docs relevant_doc_ids k).precision_k *
          (evaluateRetrieval retrieved_docs relevant_doc_ids k).recall_k) /
          ((evaluateRetrieval retrieved_docs relevant_doc_ids k).precision_k +
            (evaluateRetrieval retrieved_docs relevant_doc_ids k).recall_k)
      else 0 := rfl

/-- `mrr` as computed by `evaluate_retrieval`. -/
theorem evaluateRetrieval_mrr (retrieved_docs : List EvalDoc)
    (relevant_doc_ids : List Int) (k : Nat) :
    (evaluateRetrieval retrieved_docs relevant_doc_ids k).mrr =
      mrrLoop relevant_doc_ids (retrievedIds retrieved_docs k) 1 := rfl

/-- The intersection of the retrieved-id set with the relevant-id set is
no larger than `k`. -/
theorem inter_card_le_k (retrieved_docs : List EvalDoc)
    (relevant_doc_ids : List Int) (k : Nat) :
    ((retrievedIds retrieved_docs k).toFinset ∩
      relevant_doc_ids.toFinset).card ≤ k := by
  refine le_trans (le_trans (Finset.card_le_card Finset.inter_subset_left)
    (List.toFinset_card_le _)) ?_
  simp only [retrievedIds, List.length_map, List.length_take]
  exact min_le_left _ _

/-- The intersection is no larger than the relevant-id list. -/
theorem inter_card_le_relevant (retrieved_docs : List EvalDoc)
    (relevant_doc_ids : List Int) (k : Nat) :
    ((retrievedIds retrieved_docs k).toFinset ∩
      relevant_doc_ids.toFinset).card ≤ relevant_doc_ids.length :=
  le_trans (Finset.card_le_card Finset.inter_subset_right)
    (List.toFinset_card_le _)

/-- C5: `evaluate_retrieval` computes `precision@k = |retrieved ∩
relevant| / k`, `recall@k = |retrieved ∩ relevant| / |relevant|` (0 when
the relevant set is empty), both in `[0, 1]`; `f1 = 2 p r / (p + r)`
with `f1 = 0` when `p = r = 0`; and `mrr` is the reciprocal of the
1-based rank of the first relevant id among the first `k` retrieved, 0
when no retrieved id is relevant. -/
theorem evaluateRetrieval_metrics (retrieved_docs : List EvalDoc)
    (relevant_doc_ids : List Int) (k : Nat) (rr : Nat)
    (hk : 0 < k)
    (hrr : rr = ((retrievedIds retrieved_docs k).toFinset ∩
      relevant_doc_ids.toFinset).card) :
    (evaluateRetrieval retrieved_docs relevant_doc_ids k).precision_k =
      (rr : Rat) / k ∧
    (evaluateRetrieval retrieved_docs relevant_doc_ids k).recall_k =
      (if relevant_doc_ids.length = 0 then 0
       else (rr : Rat) / relevant_doc_ids.length) ∧
    0 ≤ (evaluateRetrieval retrieved_docs relevant_doc_ids k).precision_k ∧
    (evaluateRetrieval retrieved_docs relevant_doc_ids k).precision_k ≤ 1 ∧
    0 ≤ (evaluateRetrieval retrieved_docs relevant_doc_ids k).recall_k ∧
    (evaluateRetrieval retrieved_docs relevant_doc_ids k).recall_k ≤ 1 ∧
    (evaluateRetrieval retrieved_docs relevant_doc_ids k).f1_score =
      (if (evaluateRetrieval retrieved_docs relevant_doc_ids k).precision_k = 0 ∧
          (evaluateRetrieval retrieved_docs relevant_doc_ids k).recall_k = 0 then 0
       else 2 * (evaluateRetrieval retrieved_docs relevant_doc_ids k).precision_k *
         (evaluateRetrieval retrieved_docs relevant_doc_ids k).recall_k /
         ((evaluateRetrieval retrieved_docs relevant_doc_ids k).precision_k +
           (evaluateRetrieval retrieved_docs relevant_doc_ids k).recall_k)) ∧
    (evaluateRetrieval retrieved_docs relevant_doc_ids k).mrr =
      (match firstHitRank relevant_doc_ids (retrievedIds retrieved_docs k) with
       | some r => (1 : Rat) / r
       | none => 0) := by
  have hkq : (0 : Rat) < k := by exact_mod_cast hk
  have hprec : (evaluateRetrieval retrieved_docs relevant_doc_ids k).precision_k =
      (rr : Rat) / k := by
    rw [evaluateRetrieval_precision, if_pos hk, hrr]
  have hrec : (evaluateRetrieval retrieved_docs relevant_doc_ids k).recall_k =
      (if relevant_doc_ids.length = 0 then 0
       else (rr : Rat) / relevant_doc_ids.length) := by
    rw [evaluateRetrieval_recall, hrr]
    rcases Nat.eq_zero_or_pos relevant_doc_ids.length with h0 | hpos
    · rw [if_neg (by omega), if_pos h0]
    · rw [if_pos hpos, if_neg (by omega)]
  have hp0 : 0 ≤ (evaluateRetrieval retrieved_docs relevant_doc_ids k).precision_k := by
    rw [hprec]
    exact div_nonneg (Nat.cast_nonneg _) (Nat.cast_nonneg _)
  have hp1 : (evaluateRetrieval retrieved_docs relevant_doc_ids k).precision_k ≤ 1 := by
    rw [hprec]
    rw [div_le_one hkq]
    exact_mod_cast hrr ▸ inter_card_le_k retrieved_docs relevant_doc_ids k
  have hr0 : 0 ≤ (evaluateRetrieval retrieved_docs relevant_doc_ids k).recall_k := by
    rw [hrec]
    rcases Nat.eq_zero_or_pos relevant_doc_ids.length with h0 | hpos
    · rw [if_pos h0]
    · rw [if_neg (by omega)]
      exact div_nonneg (Nat.cast_nonneg _) (Nat.cast_nonneg _)
  have hr1 : (evaluateRetrieval retrieved_docs relevant_doc_ids k).recall_k ≤ 1 := by
    rw [hrec]
    rcases Nat.eq_zero_or_pos relevant_doc_ids.length with h0 | hpos
    · rw [if_pos h0]; norm_num
    · rw [if_neg (by omega)]
      rw [div_le_one (by exact_mod_cast hpos)]
      exact_mod_cast hrr ▸ inter_card_le_relevant retrieved_docs relevant_doc_ids k
  refine ⟨hprec, hrec, hp0, hp1, hr0, hr1, ?_, ?_⟩
  · rw [evaluateRetrieval_f1]
    by_cases hz : (evaluateRetrieval retrieved_docs relevant_doc_ids k).precision_k = 0 ∧
        (evaluateRetrieval retrieved_docs relevant_doc_ids k).recall_k = 0
    · rw [if_pos hz, if_neg (by rw [hz.1, hz.2]; norm_num)]
    · have hsum : 0 < (evaluateRetrieval retrieved_docs relevant_doc_ids k).precision_k +
          (evaluateRetrieval retrieved_docs relevant_doc_ids k).recall_k := by
        rcases lt_or_eq_of_le (add_nonneg hp0 hr0) with h | h
        · exact h
        · exfalso
          exact hz ⟨by linarith, by linarith⟩
      rw [if_pos hsum, if_neg hz, mul_assoc]
  · rw [evaluateRetrieval_mrr, mrrLoop_eq relevant_doc_ids _ 1 (le_refl 1)]
    cases firstHitRank relevant_doc_ids (retrievedIds retrieved_docs k) with
    | none => rfl
    | some r => norm_num

/-- Witness for the C5 theorem on the specification's own MRR example:
retrieved ids `[5, 0]`, relevant `[0]`, `k = 4`, one hit at rank 2. -/
theorem evaluateRetrieval_metrics_witness :
    0 < 4 ∧
    (1 = ((retrievedIds [EvalDoc.mk (some 5), EvalDoc.mk (some 0)] 4).toFinset ∩
      [(0 : Int)].toFinset).card) ∧
    ((evaluateRetrieval [EvalDoc.mk (some 5), EvalDoc.mk (some 0)] [0] 4).precision_k =
      ((1 : Nat) : Rat) / 4 ∧
    (evaluateRetrieval [EvalDoc.mk (some 5), EvalDoc.mk (some 0)] [0] 4).recall_k =
      (if [(0 : Int)].length = 0 then 0
       else ((1 : Nat) : Rat) / [(0 : Int)].length) ∧
    0 ≤ (evaluateRetrieval [EvalDoc.mk (some 5), EvalDoc.mk (some 0)] [0] 4).precision_k ∧
    (evaluateRetrieval [EvalDoc.mk (some 5), EvalDoc.mk (some 0)] [0] 4).precision_k ≤ 1 ∧
    0 ≤ (evaluateRetrieval [EvalDoc.mk (some 5), EvalDoc.mk (some 0)] [0] 4).recall_k ∧
    (evaluateRetrieval [EvalDoc.mk (some 5), EvalDoc.mk (some 0)] [0] 4).recall_k ≤ 1 ∧
    (evaluateRetrieval [EvalDoc.mk (some 5), EvalDoc.mk (some 0)] [0] 4).f1_score =
      (if (evaluateRetrieval [EvalDoc.mk (some 5), EvalDoc.mk (some 0)] [0] 4).precision_k = 0 ∧
          (evaluateRetrieval [EvalDoc.mk (some 5), EvalDoc.mk (some 0)] [0] 4).recall_k = 0 then 0
       else 2 * (evaluateRetrieval [EvalDoc.mk (some 5), EvalDoc.mk (some 0)] [0] 4).precision_k *
         (evaluateRetrieval [EvalDoc.mk (some 5), EvalDoc.mk (some 0)] [0] 4).recall_k /
         ((evaluateRetrieval [EvalDoc.mk (some 5), EvalDoc.mk (some 0)] [0] 4).precision_k +
           (evaluateRetrieval [EvalDoc.mk (some 5), EvalDoc.mk (some 0)] [0] 4).recall_k)) ∧
    (evaluateRetrieval [EvalDoc.mk (some 5), EvalDoc.mk (some 0)] [0] 4).mrr =
      (match firstHitRank [(0 : Int)]
          (retrievedIds [EvalDoc.mk (some 5), EvalDoc.mk (some 0)] 4) with
       | some r => (1 : Rat) / r
       | none => 0)) :=
  ⟨by decide, by decide,
    evaluateRetrieval_metrics [EvalDoc.mk (some 5), EvalDoc.mk (some 0)] [0] 4 1
      (by decide) (by decide)⟩

end Evaluator

namespace VectorStore

/-- Members of the content-keyed deduplication come from the input and
their content was not already seen. -/
theorem dedupByContentAux_mem :
    ∀ (l : List Document) (seen : List String) (d : Document),
      d ∈ dedupByContentAux seen l → d ∈ l ∧ d.page_content ∉ seen := by
  intro l
  induction l with
  | nil => intro seen d hd; simp [dedupByContentAux] at hd
  | cons doc rest ih =>
    intro seen d hd
    by_cases hmem : doc.page_content ∈ seen
    · rw [dedupByContentAux, if_pos hmem] at hd
      obtain ⟨h1, h2⟩ := ih seen d hd
      exact ⟨List.mem_cons_of_mem _ h1, h2⟩
    · rw [dedupByContentAux, if_neg hmem] at hd
      rcases List.mem_cons.mp hd with h1 | h1
      · subst h1; exact ⟨List.mem_cons_self _ _, hmem⟩
      · obtain ⟨h1, h2⟩ := ih _ d h1
        refine ⟨List.mem_cons_of_mem _ h1, ?_⟩
        intro hc
        exact h2 (List.mem_cons_of_mem _ hc)

/-- Content-keyed deduplication keeps a subsequence of the input, in
input order. -/
theorem dedupByContentAux_sublist :
    ∀ (l : List Document) (seen : List String),
      (dedupByContentAux seen l).Sublist l := by
  intro l
  induction l with
  | nil => intro seen; simp [dedupByContentAux]
  | cons doc rest ih =>
    intro seen
    by_cases hmem : doc.page_content ∈ seen
    · rw [dedupByContentAux, if_pos hmem]
      exact List.Sublist.cons _ (ih seen)
    · rw [dedupByContentAux, if_neg hmem]
      exact List.Sublist.cons₂ _ (ih _)

/-- The contents surviving deduplication are pairwise distinct. -/
theorem dedupByContentAux_nodup :
    ∀ (l : List Document) (seen : List String),
      ((dedupByContentAux seen l).map Document.page_content).Nodup := by
  intro l
  induction l with
  | nil => intro seen; simp [dedupByContentAux]
  | cons doc rest ih =>
    intro seen
    by_cases hmem : doc.page_content ∈ seen
    · rw [dedupByContentAux, if_pos hmem]
      exact ih seen
    · rw [dedupByContentAux, if_neg hmem]
      rw [List.map_cons, List.nodup_cons]
      refine ⟨?_, ih _⟩
      intro hc
      obtain ⟨y, hy, hyc⟩ := List.mem_map.mp hc
      have := (dedupByContentAux_mem rest _ y hy).2
      exact this (hyc ▸ List.mem_cons_self _ _)

/-- The set of surviving contents is the set of input contents minus the
already-seen ones. -/
theorem dedupByContentAux_toFinset :
    ∀ (l : List Document) (seen : List String),
      ((dedupByContentAux seen l).map Document.page_content).toFinset =
        (l.map Document.page_content).toFinset \ seen.toFinset := by
  intro l
  induction l with
  | nil => intro seen; simp [dedupByContentAux]
  | cons doc rest ih =>
    intro seen
    by_cases hmem : doc.page_content ∈ seen
    · rw [dedupByContentAux, if_pos hmem, ih]
      ext a
      simp only [List.map_cons, List.toFinset_cons, Finset.mem_sdiff,
        Finset.mem_insert, List.mem_toFinset]
      constructor
      · rintro ⟨h1, h2⟩; exact ⟨Or.inr h1, h2⟩
      · rintro ⟨h1 | h1, h2⟩
        · exact absurd (h1 ▸ hmem) h2
        · exact ⟨h1, h2⟩
    · rw [dedupByContentAux, if_neg hmem]
      ext a
      simp only [List.map_cons, List.toFinset_cons, Finset.mem_insert,
        List.mem_toFinset, ih, Finset.mem_sdiff]
      constructor
      · rintro (h1 | ⟨h1, h2⟩)
        · exact ⟨Or.inl h1, h1 ▸ hmem⟩
        · refine ⟨Or.inr h1, ?_⟩
          intro hc
          exact h2 (Or.inr hc)
      · rintro ⟨h1 | h1, h2⟩
        · exact Or.inl h1
        · by_cases hadoc : a = doc.page_content
          · exact Or.inl hadoc
          · refine Or.inr ⟨h1, ?_⟩
            intro hc
            rcases hc with h3 | h3
            · exact hadoc h3
            · exact h2 h3

/-- Every survivor of content-keyed deduplication is the first element
of the input carrying its content, up to contents already seen. -/
theorem dedupByContentAux_first :
    ∀ (l : List Document) (seen : List String) (d : Document),
      d ∈ dedupByContentAux seen l →
        ∃ l₁ l₂, l = l₁ ++ d :: l₂ ∧
          ∀ e ∈ l₁, e.page_content = d.page_content →
            e.page_content ∈ seen := by
  intro l
  induction l with
  | nil => intro seen d hd; simp [dedupByContentAux] at hd
  | cons doc rest ih =>
    intro seen d hd
    by_cases hmem : doc.page_content ∈ seen
    · rw [dedupByContentAux, if_pos hmem] at hd
      obtain ⟨l₁, l₂, hsplit, hfirst⟩ := ih seen d hd
      refine ⟨doc :: l₁, l₂, by rw [List.cons_append, hsplit], ?_⟩
      intro e he hec
      rcases List.mem_cons.mp he with h1 | h1
      · subst h1; exact hmem
      · exact hfirst e h1 hec
    · rw [dedupByContentAux, if_neg hmem] at hd
      rcases List.mem_cons.mp hd with h1 | h1
      · subst h1
        exact ⟨[], rest, rfl, by intro e he; simp at he⟩
      · obtain ⟨l₁, l₂, hsplit, hfirst⟩ := ih _ d h1
        have hdne : d.page_content ≠ doc.page_content := by
          intro hc
          exact (dedupByContentAux_mem rest _ d h1).2
            (hc ▸ List.mem_cons_self _ _)
        refine ⟨doc :: l₁, l₂, by rw [List.cons_append, hsplit], ?_⟩
        intro e he hec
        rcases List.mem_cons.mp he with h1e | h1e
        · subst h1e; exact absurd hec.symm hdne
        · rcases List.mem_cons.mp (hfirst e h1e hec) with h2 | h2
          · exact absurd (hec.symm.trans h2) hdne
          · exact h2

/-- When the hash is injective on the contents involved, hash-keyed
deduplication agrees with content-keyed deduplication. -/
theorem dedupAux_eq_content (hashFn : String → Int) :
    ∀ (l : List Document) (seenS : List String),
      (∀ c1 ∈ seenS ++ l.map Document.page_content,
        ∀ c2 ∈ seenS ++ l.map Document.page_content,
          hashFn c1 = hashFn c2 → c1 = c2) →
      dedupAux hashFn (seenS.map hashFn) l = dedupByContentAux seenS l := by
  intro l
  induction l with
  | nil => intro seenS _; rfl
  | cons doc rest ih =>
    intro seenS hinj
    have hdocmem : doc.page_content ∈ seenS ++ (doc :: rest).map Document.page_content :=
      List.mem_append_right _ (by simp)
    have hmemiff : (hashFn doc.page_content ∈ seenS.map hashFn) ↔
        (doc.page_content ∈ seenS) := by
      constructor
      · intro h
        obtain ⟨c, hc, he⟩ := List.mem_map.mp h
        have : c = doc.page_content :=
          hinj c (List.mem_append_left _ hc) doc.page_content hdocmem he
        exact this ▸ hc
      · intro h
        exact List.mem_map_of_mem _ h
    have hweak : ∀ c1 ∈ seenS ++ rest.map Document.page_content,
        ∀ c2 ∈ seenS ++ rest.map Document.page_content,
          hashFn c1 = hashFn c2 → c1 = c2 := by
      intro c1 h1 c2 h2 he
      refine hinj c1 ?_ c2 ?_ he <;>
        · first
          | exact (List.mem_append.mp h1).elim (List.mem_append_left _)
              (fun hm => List.mem_append_right _ (by simp [hm]))
          | exact (List.mem_append.mp h2).elim (List.mem_append_left _)
              (fun hm => List.mem_append_right _ (by simp [hm]))
    by_cases hmem : doc.page_content ∈ seenS
    · rw [dedupAux, dedupByContentAux, if_pos hmem,
        if_pos (hmemiff.mpr hmem)]
      exact ih seenS hweak
    · rw [dedupAux, dedupByContentAux, if_neg hmem,
        if_neg (fun hc => hmem (hmemiff.mp hc))]
      have hmap : (doc.page_content :: seenS).map hashFn =
          hashFn doc.page_content :: seenS.map hashFn := rfl
      rw [← hmap]
      have hweak2 : ∀ c1 ∈ (doc.page_content :: seenS) ++ rest.map Document.page_content,
          ∀ c2 ∈ (doc.page_content :: seenS) ++ rest.map Document.page_content,
            hashFn c1 = hashFn c2 → c1 = c2 := by
        intro c1 h1 c2 h2 he
        refine hinj c1 ?_ c2 ?_ he <;>
          [skip; skip] <;> simp at h1 h2 ⊢ <;> tauto
      rw [ih (doc.page_content :: seenS) hweak2]

end VectorStore

namespace VectorStore

/-- C6: `create_vectorstore` deduplicates its input batch by content
before indexing (assuming the content hash is injective on the batch's
contents, as Python's string hash is in practice): the stored handle
holds exactly the first occurrence of each distinct content, in input
order, and the number of stored documents equals the number of unique
contents in the batch. -/
theorem createVectorstore_dedup (hashFn : String → Int)
    (mkSearch : List Document → String → Nat → List (Document × Rat))
    (s : Manager) (documents : List Document)
    (hinj : ∀ c1 ∈ documents.map Document.page_content,
      ∀ c2 ∈ documents.map Document.page_content,
        hashFn c1 = hashFn c2 → c1 = c2) :
    (createVectorstore hashFn mkSearch s documents).1.vectorstore =
      some (createVectorstore hashFn mkSearch s documents).2 ∧
    (createVectorstore hashFn mkSearch s documents).2.docs =
      dedupByContent documents ∧
    (dedupByContent documents).Sublist documents ∧
    ((dedupByContent documents).map Document.page_content).Nodup ∧
    ((dedupByContent documents).map Document.page_content).toFinset =
      (documents.map Document.page_content).toFinset ∧
    (∀ d ∈ dedupByContent documents, ∃ l₁ l₂, documents = l₁ ++ d :: l₂ ∧
      ∀ e ∈ l₁, e.page_content ≠ d.page_content) ∧
    (createVectorstore hashFn mkSearch s documents).2.docs.length =
      (documents.map Document.page_content).toFinset.card := by
  have hinj2 : ∀ c1 ∈ ([] : List String) ++ documents.map Document.page_content,
      ∀ c2 ∈ ([] : List String) ++ documents.map Document.page_content,
        hashFn c1 = hashFn c2 → c1 = c2 := by
    simpa using hinj
  have heq : (createVectorstore hashFn mkSearch s documents).2.docs =
      dedupByContent documents := by
    show deduplicateDocuments hashFn documents = dedupByContent documents
    show dedupAux hashFn [] documents = dedupByContentAux [] documents
    have hmap : (([] : List String).map hashFn) = [] := rfl
    rw [← hmap]
    exact dedupAux_eq_content hashFn documents [] hinj2
  have hnodup : ((dedupByContent documents).map Document.page_content).Nodup :=
    dedupByContentAux_nodup documents []
  have hfin : ((dedupByContent documents).map Document.page_content).toFinset =
      (documents.map Document.page_content).toFinset := by
    have := dedupByContentAux_toFinset documents []
    simpa using this
  refine ⟨rfl, heq, dedupByContentAux_sublist documents [], hnodup, hfin,
    ?_, ?_⟩
  · intro d hd
    obtain ⟨l₁, l₂, hsplit, hfirst⟩ := dedupByContentAux_first documents [] d hd
    refine ⟨l₁, l₂, hsplit, ?_⟩
    intro e he hec
    exact absurd (hfirst e he hec) (by simp)
  · rw [heq]
    calc (dedupByContent documents).length
        = ((dedupByContent documents).map Document.page_content).length := by
          rw [List.length_map]
      _ = ((dedupByContent documents).map Document.page_content).toFinset.card :=
          (List.toFinset_card_of_nodup hnodup).symm
      _ = (documents.map Document.page_content).toFinset.card := by rw [hfin]

/-- Witness for the C6 theorem: three documents with contents "a", "bb",
"a" and the (injective here) length hash; the store keeps the first "a"
and "bb", two documents for two unique contents. -/
theorem createVectorstore_dedup_witness :
    (∀ c1 ∈ [Document.mk "a" [], Document.mk "bb" [],
        Document.mk "a" []].map Document.page_content,
      ∀ c2 ∈ [Document.mk "a" [], Document.mk "bb" [],
          Document.mk "a" []].map Document.page_content,
        (fun t => (t.length : Int)) c1 = (fun t => (t.length : Int)) c2 →
          c1 = c2) ∧
    (createVectorstore (fun t => (t.length : Int)) (fun _ _ _ => [])
        (Manager.mk "c" "m" none)
        [Document.mk "a" [], Document.mk "bb" [], Document.mk "a" []]).2.docs =
      dedupByContent [Document.mk "a" [], Document.mk "bb" [], Document.mk "a" []] ∧
    dedupByContent [Document.mk "a" [], Document.mk "bb" [], Document.mk "a" []] =
      [Document.mk "a" [], Document.mk "bb" []] ∧
    (createVectorstore (fun t => (t.length : Int)) (fun _ _ _ => [])
        (Manager.mk "c" "m" none)
        [Document.mk "a" [], Document.mk "bb" [], Document.mk "a" []]).2.docs.length =
      ([Document.mk "a" [], Document.mk "bb" [],
        Document.mk "a" []].map Document.page_content).toFinset.card :=
  ⟨by decide, (createVectorstore_dedup (fun t => (t.length : Int))
      (fun _ _ _ => []) (Manager.mk "c" "m" none)
      [Document.mk "a" [], Document.mk "bb" [], Document.mk "a" []]
      (by decide)).2.1, by decide,
    (createVectorstore_dedup (fun t => (t.length : Int))
      (fun _ _ _ => []) (Manager.mk "c" "m" none)
      [Document.mk "a" [], Document.mk "bb" [], Document.mk "a" []]
      (by decide)).2.2.2.2.2.2⟩

end VectorStore
